import Mathlib

/-!
Shallow embedding of `src/memory-vector-store.ts` (class `MemoryVectorStore`)
from the repository `thehackersplaybook/research-gangsta`.

Modelling conventions:
* JavaScript numbers supplied by callers (vector components, thresholds) are
  rationals (every JS float is a rational); the value computed by
  `cosineSimilarity` lives in `ℝ` because the source takes square roots.
* The `Map<string, Document>` is an insertion-ordered association list;
  `Map.set` replaces in place when the key exists and appends otherwise.
* `async` methods that can throw are functions into `Except String`;
  the external OpenAI embedding call is an explicit `provider` argument
  `String → Except String (List ℚ)`.
* `console.warn` is a pure no-op (the document is skipped, nothing else).
-/

namespace ResearchGangsta

/-- `Document` interface: id, content, optional metadata, optional embedding.
`metadata?: Record<string, any>` is modelled as an association list of
string keys to opaque string values. -/
structure Document where
  id : String
  content : String
  metadata : List (String × String) := []
  embedding : Option (List ℚ) := none
  deriving Repr, DecidableEq

/-- The argument of `addDocument`: `Omit<Document, 'embedding'>`. -/
structure DocInput where
  id : String
  content : String
  metadata : List (String × String) := []
  deriving Repr, DecidableEq

/-- The `fullDocument` built by `addDocument`: the input enriched with the
embedding returned by the provider. -/
def fullDocOf (d : DocInput) (v : List ℚ) : Document :=
  { id := d.id, content := d.content, metadata := d.metadata,
    embedding := some v }

/-- `SearchResult`: a matching document with its cosine-similarity score. -/
structure SearchResult where
  document : Document
  score : ℝ

/-- The mutable state of a `MemoryVectorStore`: the `documents` map plus the
configuration fixed by the constructor (`embeddingModel`, `dimension`).
The `openai` client is replaced by the explicit `provider` argument of the
operations that use it. -/
structure MemoryVectorStore where
  documents : List (String × Document)
  embeddingModel : String
  dimension : Nat
  deriving Repr, DecidableEq

/-- JS `Map.set`: overwrite in place if the key is present, append otherwise. -/
def mapSet (m : List (String × Document)) (k : String) (v : Document) :
    List (String × Document) :=
  match m with
  | [] => [(k, v)]
  | (k', v') :: rest =>
      if k' = k then (k, v) :: rest else (k', v') :: mapSet rest k v

/-- JS `Map.get`. -/
def mapGet (m : List (String × Document)) (k : String) : Option Document :=
  match m with
  | [] => none
  | (k', v') :: rest => if k' = k then some v' else mapGet rest k

/-- JS `Map.delete`: removes the entry and reports whether it was present. -/
def mapDelete (m : List (String × Document)) (k : String) :
    List (String × Document) × Bool :=
  match m with
  | [] => ([], false)
  | (k', v') :: rest =>
      if k' = k then (rest, true)
      else
        let (rest', b) := mapDelete rest k
        ((k', v') :: rest', b)

/-- The constructor with an explicit configuration: fresh empty map,
defaults `text-embedding-3-small` and `1536` filled in by the caller of
this definition when absent. -/
def mkStore (embeddingModel : String) (dimension : Nat) : MemoryVectorStore :=
  { documents := [], embeddingModel := embeddingModel, dimension := dimension }

/-- The external embedding call: `openai.embeddings.create` reduced to its
observable behaviour, a function from the input text to either a vector or
a provider error message. -/
abbrev Provider := String → Except String (List ℚ)

/-- `generateEmbedding`: calls the provider and wraps any failure in
`Failed to generate embedding: ...`. -/
def generateEmbedding (provider : Provider) (text : String) :
    Except String (List ℚ) :=
  match provider text with
  | .ok v => .ok v
  | .error e => .error ("Failed to generate embedding: " ++ e)

/-- `addDocument`: embeds the content, stores the enriched document under its
id, and returns the stored document. On provider failure the store is
unchanged and the error propagates. -/
def addDocument (provider : Provider) (s : MemoryVectorStore) (d : DocInput) :
    Except String (MemoryVectorStore × Document) :=
  match generateEmbedding provider d.content with
  | .error e => .error e
  | .ok emb =>
      let fullDocument : Document :=
        { id := d.id, content := d.content, metadata := d.metadata,
          embedding := some emb }
      .ok ({ s with documents := mapSet s.documents d.id fullDocument },
           fullDocument)

/-- `addDocuments`: processes the inputs sequentially via `addDocument`.
The first component is the store after the last successful insertion (the
source mutates in place, so entries before a failure stay committed); the
second is the returned list or the first error. -/
def addDocuments (provider : Provider) (s : MemoryVectorStore) :
    List DocInput → MemoryVectorStore × Except String (List Document)
  | [] => (s, .ok [])
  | d :: rest =>
    match addDocument provider s d with
    | .error e => (s, .error e)
    | .ok (s', doc) =>
        let (s'', r) := addDocuments provider s' rest
        (s'', match r with
              | .error e => .error e
              | .ok docs => .ok (doc :: docs))

/-- `getDocument`. -/
def getDocument (s : MemoryVectorStore) (id : String) : Option Document :=
  mapGet s.documents id

/-- `getAllDocuments`: the values of the map in insertion order. -/
def getAllDocuments (s : MemoryVectorStore) : List Document :=
  s.documents.map Prod.snd

/-- `deleteDocument`. -/
def deleteDocument (s : MemoryVectorStore) (id : String) :
    MemoryVectorStore × Bool :=
  let (m, b) := mapDelete s.documents id
  ({ s with documents := m }, b)

/-- `clear`. -/
def clear (s : MemoryVectorStore) : MemoryVectorStore :=
  { s with documents := [] }

/-- `size`. -/
def size (s : MemoryVectorStore) : Nat :=
  s.documents.length

/-- `export`: identical to `getAllDocuments`. -/
def exportDocs (s : MemoryVectorStore) : List Document :=
  getAllDocuments s

/-- `import`: processes the sequence in order; a document without an
embedding raises, but the entries set before it stay committed (the source
mutates in place), so the result is the mutated-so-far store paired with
the error, if any. -/
def importDocs (s : MemoryVectorStore) :
    List Document → MemoryVectorStore × Option String
  | [] => (s, none)
  | d :: rest =>
    match d.embedding with
    | none => (s, some ("Document " ++ d.id ++ " must have an embedding for import"))
    | some _ => importDocs { s with documents := mapSet s.documents d.id d } rest

/-- The dot-product accumulator of `cosineSimilarity`'s loop. -/
def dotProduct (a b : List ℚ) : ℚ :=
  ((a.zip b).map fun p => p.1 * p.2).sum

/-- The squared-magnitude accumulator of `cosineSimilarity`'s loop. -/
def sumSquares (a : List ℚ) : ℚ :=
  (a.map fun x => x * x).sum

/-- `cosineSimilarity`: errors on a length mismatch; returns `0` when either
magnitude is zero; otherwise the dot product over the product of the
Euclidean norms. The value is a real number because of the square roots. -/
noncomputable def cosineSimilarity (a b : List ℚ) : Except String ℝ :=
  if a.length ≠ b.length then .error "Vectors must have the same length"
  else
    let magnitudeA : ℝ := Real.sqrt ((sumSquares a : ℚ) : ℝ)
    let magnitudeB : ℝ := Real.sqrt ((sumSquares b : ℚ) : ℝ)
    if magnitudeA = 0 ∨ magnitudeB = 0 then .ok 0
    else .ok (((dotProduct a b : ℚ) : ℝ) / (magnitudeA * magnitudeB))

/-- The options record shared by both search entry points, with the source's
defaults. -/
structure SearchOptions where
  topK : Nat := 5
  threshold : ℚ := 0
  filter : Option (Document → Bool) := none

/-- The guard `filter && !filter(doc)` of the scan loop: a document is
skipped when a filter was supplied and rejects it. -/
def filterSkips (filter : Option (Document → Bool)) (doc : Document) : Bool :=
  match filter with
  | some f => !f doc
  | none => false

/-- The shared scan loop of both search entry points: iterate the resident
documents in order; skip documents rejected by the filter; skip (with only a
console warning) documents without an embedding; compute the cosine
similarity — an error there aborts the whole search — and retain the pair
only when `score >= threshold`. -/
noncomputable def collectResults (query : List ℚ) (threshold : ℚ)
    (filter : Option (Document → Bool)) :
    List Document → Except String (List SearchResult)
  | [] => .ok []
  | doc :: rest =>
    if filterSkips filter doc then
      collectResults query threshold filter rest
    else
      match doc.embedding with
      | none => collectResults query threshold filter rest
      | some emb =>
        match cosineSimilarity query emb with
        | .error e => .error e
        | .ok score =>
          match collectResults query threshold filter rest with
          | .error e => .error e
          | .ok tail =>
            if (threshold : ℝ) ≤ score then .ok (⟨doc, score⟩ :: tail)
            else .ok tail

/-- The comparator `(a, b) => b.score - a.score`: `a` goes before `b`
exactly when `b.score ≤ a.score` (descending order, stable on ties). -/
def scoreGE (x y : SearchResult) : Prop :=
  y.score ≤ x.score

noncomputable instance : DecidableRel scoreGE :=
  fun x y => Real.decidableLE y.score x.score

instance : IsTotal SearchResult scoreGE :=
  ⟨fun x y => le_total y.score x.score⟩

instance : IsTrans SearchResult scoreGE :=
  ⟨fun _ _ _ h1 h2 => le_trans h2 h1⟩

/-- `similaritySearch`: returns `[]` immediately on an empty store (without
calling the provider); otherwise embeds the query, scans, sorts by score
descending and truncates to `topK`. -/
noncomputable def similaritySearch (provider : Provider)
    (s : MemoryVectorStore) (query : String)
    (options : SearchOptions := {}) : Except String (List SearchResult) :=
  if s.documents.length = 0 then .ok []
  else
    match generateEmbedding provider query with
    | .error e => .error e
    | .ok queryEmbedding =>
      match collectResults queryEmbedding options.threshold options.filter
          (getAllDocuments s) with
      | .error e => .error e
      | .ok results =>
          .ok ((List.insertionSort scoreGE results).take options.topK)

/-- `similaritySearchByVector`: returns `[]` immediately on an empty store;
then errors when the query vector's length differs from the configured
dimension; otherwise scans, sorts descending and truncates to `topK`. -/
noncomputable def similaritySearchByVector (s : MemoryVectorStore)
    (embedding : List ℚ) (options : SearchOptions := {}) :
    Except String (List SearchResult) :=
  if s.documents.length = 0 then .ok []
  else if embedding.length ≠ s.dimension then
    .error ("Embedding dimension mismatch: expected " ++ toString s.dimension
      ++ ", got " ++ toString embedding.length)
  else
    match collectResults embedding options.threshold options.filter
        (getAllDocuments s) with
    | .error e => .error e
    | .ok results =>
        .ok ((List.insertionSort scoreGE results).take options.topK)

/-- The result list of a search outcome (`[]` when the search raised);
lets properties of returned results be stated without an `= .ok` premise. -/
def resultsOf : Except String (List SearchResult) → List SearchResult
  | .ok l => l
  | .error _ => []

/-- Decidable check of the §3 invariant "every resident document carries an
embedding of length exactly the configured dimension". -/
def dimensionInvariant (s : MemoryVectorStore) : Bool :=
  s.documents.all fun p =>
    match p.2.embedding with
    | some e => e.length == s.dimension
    | none => false

/-- Decidable check that every resident document carries some embedding. -/
def embeddingsPresent (s : MemoryVectorStore) : Bool :=
  s.documents.all fun p => p.2.embedding.isSome

/-- One mutating operation of the store's public surface. -/
inductive StoreOp where
  | add (d : DocInput)
  | addBatch (ds : List DocInput)
  | importBatch (ds : List Document)
  | del (id : String)
  | clearAll

/-- The store state left behind by one mutating operation (errors propagate
to the caller but the store keeps whatever was committed before them). -/
def applyOp (provider : Provider) (s : MemoryVectorStore) :
    StoreOp → MemoryVectorStore
  | .add d =>
      match addDocument provider s d with
      | .ok (s', _) => s'
      | .error _ => s
  | .addBatch ds => (addDocuments provider s ds).1
  | .importBatch ds => (importDocs s ds).1
  | .del id => (deleteDocument s id).1
  | .clearAll => clear s

/-- The store state after a sequence of mutating operations. -/
def applyOps (provider : Provider) (s : MemoryVectorStore)
    (ops : List StoreOp) : MemoryVectorStore :=
  ops.foldl (applyOp provider) s

/-- A one-document store whose single embedding is `[-1]`: with query `[1]`
its cosine similarity is `-1`, a negative score. -/
def docNeg : Document :=
  { id := "a", content := "c", embedding := some [-1] }

/-- The store holding `docNeg` under its id, dimension 1. -/
def storeNeg : MemoryVectorStore :=
  { documents := [("a", docNeg)], embeddingModel := "m", dimension := 1 }

/-- A document carrying an embedding of length 2, imported below into a
store configured with dimension 3. -/
def badDimDoc : Document :=
  { id := "a", content := "c", embedding := some [1, 1] }

/-- A one-document store whose single embedding is `[1]`: with query `[1]`
its cosine similarity is `1`. -/
def docPos : Document :=
  { id := "p", content := "c", embedding := some [1] }

/-- The store holding `docPos` under its id, dimension 1. -/
def storePos : MemoryVectorStore :=
  { documents := [("p", docPos)], embeddingModel := "m", dimension := 1 }

/-- A provider that fails exactly on the text `bad`. -/
def providerW : Provider :=
  fun t => if t = "bad" then .error "boom" else .ok [1]

/-- An input `providerW` embeds successfully. -/
def inputGood : DocInput :=
  { id := "g", content := "good" }

/-- An input `providerW` fails on. -/
def inputBad : DocInput :=
  { id := "b", content := "bad" }

section MapLemmas

lemma mem_mapSet (m : List (String × Document)) (k : String) (v : Document) :
    ∀ q ∈ mapSet m k v, q = (k, v) ∨ q ∈ m := by
  induction m with
  | nil => intro q hq; simpa [mapSet] using hq
  | cons p rest ih =>
      obtain ⟨k', v'⟩ := p
      intro q hq
      by_cases hk : k' = k
      · simp only [mapSet, if_pos hk, List.mem_cons] at hq
        rcases hq with hq | hq
        · exact Or.inl hq
        · exact Or.inr (List.mem_cons_of_mem _ hq)
      · simp only [mapSet, if_neg hk, List.mem_cons] at hq
        rcases hq with hq | hq
        · exact Or.inr (by simp [hq])
        · rcases ih q hq with h' | h'
          · exact Or.inl h'
          · exact Or.inr (List.mem_cons_of_mem _ h')

lemma mapGet_mapSet (m : List (String × Document)) (k q : String)
    (v : Document) :
    mapGet (mapSet m k v) q = if q = k then some v else mapGet m q := by
  induction m with
  | nil =>
      by_cases hq : q = k
      · subst hq; simp [mapSet, mapGet]
      · have hk : ¬ k = q := fun h => hq h.symm
        simp [mapSet, mapGet, hq, hk]
  | cons p rest ih =>
      obtain ⟨k', v'⟩ := p
      by_cases hk : k' = k
      · subst hk
        by_cases hq : q = k'
        · subst hq; simp [mapSet, mapGet]
        · have h2 : ¬ k' = q := fun h => hq h.symm
          simp [mapSet, mapGet, hq, h2]
      · by_cases hq : q = k
        · subst hq
          simp [mapSet, mapGet, hk, ih]
        · by_cases hq' : k' = q
          · subst hq'
            simp [mapSet, mapGet, hk, hq]
          · simp [mapSet, mapGet, hk, hq, hq', ih]

lemma mapSet_of_not_mem_keys {m : List (String × Document)} {k : String}
    (v : Document) (h : k ∉ m.map Prod.fst) :
    mapSet m k v = m ++ [(k, v)] := by
  induction m with
  | nil => simp [mapSet]
  | cons p rest ih =>
      obtain ⟨k', v'⟩ := p
      simp only [List.map_cons, List.mem_cons] at h
      push_neg at h
      have h1 : ¬ k' = k := fun hh => h.1 hh.symm
      simp [mapSet, h1, ih h.2]

end MapLemmas

section CosineLemmas

lemma sumSquares_of_zero {a : List ℚ} (h : ∀ x ∈ a, x = 0) :
    sumSquares a = 0 := by
  apply List.sum_eq_zero
  intro y hy
  simp only [List.mem_map] at hy
  obtain ⟨x, hx, rfl⟩ := hy
  rw [h x hx]; ring

lemma dotProduct_nil_left (b : List ℚ) : dotProduct [] b = 0 := rfl

lemma dotProduct_nil_right (a : List ℚ) : dotProduct a [] = 0 := by
  cases a <;> rfl

lemma dotProduct_cons (x y : ℚ) (a b : List ℚ) :
    dotProduct (x :: a) (y :: b) = x * y + dotProduct a b := by
  simp [dotProduct]

lemma dotProduct_comm (a b : List ℚ) : dotProduct a b = dotProduct b a := by
  induction a generalizing b with
  | nil => cases b <;> simp [dotProduct_nil_left, dotProduct_nil_right]
  | cons x a ih =>
      cases b with
      | nil => simp [dotProduct_nil_left, dotProduct_nil_right]
      | cons y b => simp [dotProduct_cons, ih, mul_comm]

end CosineLemmas

/-- C1 (counterexample). `similaritySearchByVector` on a store holding zero
documents returns `[]` even when the query vector's length differs from the
configured dimension: the empty-store early return precedes the dimension
check, contradicting "fails ... for every store state including a store
holding zero documents". -/
theorem searchByVector_empty_store_skips_dimension_check :
    similaritySearchByVector (mkStore "text-embedding-3-small" 3) [1, 2] {}
      = .ok []
    ∧ ([1, 2] : List ℚ).length
        ≠ (mkStore "text-embedding-3-small" 3).dimension :=
  ⟨rfl, by decide⟩

/-- C1 (amended). On a store holding at least one document,
`similaritySearchByVector` with a query vector whose length differs from the
configured dimension fails with the dimension-mismatch error before scanning
any documents (the result does not depend on the resident documents). -/
theorem searchByVector_dimension_mismatch_errors (s : MemoryVectorStore)
    (v : List ℚ) (opts : SearchOptions) (hne : s.documents.length ≠ 0)
    (hdim : v.length ≠ s.dimension) :
    similaritySearchByVector s v opts
      = .error ("Embedding dimension mismatch: expected "
          ++ toString s.dimension ++ ", got " ++ toString v.length) := by
  unfold similaritySearchByVector
  rw [if_neg hne, if_pos hdim]

/-- Witness for `searchByVector_dimension_mismatch_errors`: a store with one
document, dimension 1, queried with a length-2 vector. -/
theorem searchByVector_dimension_mismatch_errors_witness :
    similaritySearchByVector storeNeg [1, 2] {}
      = .error "Embedding dimension mismatch: expected 1, got 2" :=
  searchByVector_dimension_mismatch_errors storeNeg [1, 2] {}
    (by decide) (by decide)

/-- C9. `similaritySearch` on a store holding zero documents returns `[]`
for every provider — in particular for a provider that would fail on the
query — so the provider is never consulted and nothing is raised. -/
theorem similaritySearch_empty_store (provider : Provider)
    (s : MemoryVectorStore) (query : String) (opts : SearchOptions)
    (h : s.documents = []) :
    similaritySearch provider s query opts = .ok [] := by
  unfold similaritySearch
  simp [h]

/-- Witness for `similaritySearch_empty_store`: a freshly constructed store
searched with a provider that always fails still returns `.ok []`. -/
theorem similaritySearch_empty_store_witness :
    similaritySearch (fun _ => .error "provider down")
        (mkStore "text-embedding-3-small" 1536) "anything" {} = .ok [] :=
  similaritySearch_empty_store _ _ _ _ rfl

/-- C7. For equal-length vectors, if either is the zero vector (zero
magnitude), `cosineSimilarity` returns `.ok 0` instead of failing or
dividing by zero. -/
theorem cosineSimilarity_zero_magnitude (a b : List ℚ)
    (hlen : a.length = b.length)
    (hz : (∀ x ∈ a, x = 0) ∨ (∀ x ∈ b, x = 0)) :
    cosineSimilarity a b = .ok 0 := by
  unfold cosineSimilarity
  rcases hz with h | h
  · simp [hlen, sumSquares_of_zero h]
  · simp [hlen, sumSquares_of_zero h]

/-- Witness for `cosineSimilarity_zero_magnitude`: the zero vector `[0, 0]`
against `[1, 2]`. -/
theorem cosineSimilarity_zero_magnitude_witness :
    cosineSimilarity [0, 0] [1, 2] = .ok 0 :=
  cosineSimilarity_zero_magnitude [0, 0] [1, 2] (by decide)
    (Or.inl (by decide))

/-- C10. `cosineSimilarity` is symmetric in its two arguments (on every
input: equal-length pairs give equal scores, and mismatched lengths give
the same error either way). -/
theorem cosineSimilarity_comm (a b : List ℚ) :
    cosineSimilarity a b = cosineSimilarity b a := by
  unfold cosineSimilarity
  by_cases hl : a.length = b.length
  · simp only [hl, ne_eq, not_true_eq_false, if_false]
    rw [if_congr or_comm rfl (by rw [dotProduct_comm, mul_comm])]
  · have hl' : b.length ≠ a.length := fun h => hl h.symm
    simp [hl, hl']

section SortLemmas

lemma sorted_scores_sortTake (l : List SearchResult) (k : Nat) :
    List.Sorted (· ≥ ·)
      (((List.insertionSort scoreGE l).take k).map SearchResult.score)
    ∧ ((List.insertionSort scoreGE l).take k).length ≤ k := by
  constructor
  · have hs : List.Sorted scoreGE (List.insertionSort scoreGE l) :=
      List.sorted_insertionSort scoreGE l
    have ht : List.Sorted scoreGE ((List.insertionSort scoreGE l).take k) :=
      List.Pairwise.sublist (List.take_sublist k _) hs
    exact List.Pairwise.map SearchResult.score (fun _ _ h => h) ht
  · rw [List.length_take]
    exact min_le_left _ _

lemma mem_of_mem_sortTake {l : List SearchResult} {k : Nat}
    {r : SearchResult} (h : r ∈ (List.insertionSort scoreGE l).take k) :
    r ∈ l :=
  (List.perm_insertionSort scoreGE l).subset (List.take_subset k _ h)

lemma collectResults_nil (q : List ℚ) (t : ℚ)
    (f : Option (Document → Bool)) :
    collectResults q t f [] = .ok [] := rfl

lemma collectResults_cons (q : List ℚ) (t : ℚ)
    (f : Option (Document → Bool)) (d : Document) (rest : List Document) :
    collectResults q t f (d :: rest) =
      if filterSkips f d then
        collectResults q t f rest
      else
        match d.embedding with
        | none => collectResults q t f rest
        | some emb =>
          match cosineSimilarity q emb with
          | .error e => .error e
          | .ok score =>
            match collectResults q t f rest with
            | .error e => .error e
            | .ok tail =>
              if (t : ℝ) ≤ score then .ok (⟨d, score⟩ :: tail)
              else .ok tail := rfl

lemma collectResults_threshold {q : List ℚ} {t : ℚ}
    {f : Option (Document → Bool)} :
    ∀ {docs : List Document} {l : List SearchResult},
      collectResults q t f docs = .ok l → ∀ r ∈ l, (t : ℝ) ≤ r.score := by
  intro docs
  induction docs with
  | nil =>
      intro l h r hr
      simp only [collectResults_nil, Except.ok.injEq] at h
      subst h
      simp at hr
  | cons d rest ih =>
      intro l h r hr
      rw [collectResults_cons] at h
      by_cases hf : filterSkips f d = true
      · rw [if_pos hf] at h
        exact ih h r hr
      · rw [if_neg hf] at h
        cases hemb : d.embedding with
        | none =>
            simp only [hemb] at h
            exact ih h r hr
        | some emb =>
            simp only [hemb] at h
            cases hcos : cosineSimilarity q emb with
            | error e =>
                simp only [hcos] at h
                exact Except.noConfusion h
            | ok score =>
                simp only [hcos] at h
                cases hrec : collectResults q t f rest with
                | error e =>
                    simp only [hrec] at h
                    exact Except.noConfusion h
                | ok tail =>
                    simp only [hrec] at h
                    by_cases hts : (t : ℝ) ≤ score
                    · rw [if_pos hts] at h
                      obtain rfl :
                          ({ document := d, score := score } : SearchResult)
                            :: tail = l := by simpa using h
                      rcases List.mem_cons.mp hr with rfl | hr'
                      · simpa using hts
                      · exact ih hrec r hr'
                    · rw [if_neg hts] at h
                      obtain rfl : tail = l := by simpa using h
                      exact ih hrec r hr

lemma similaritySearch_cases (provider : Provider) (s : MemoryVectorStore)
    (q : String) (opts : SearchOptions) :
    similaritySearch provider s q opts = .ok []
    ∨ (∃ e, similaritySearch provider s q opts = .error e)
    ∨ ∃ qe results,
        collectResults qe opts.threshold opts.filter (getAllDocuments s)
          = .ok results
        ∧ similaritySearch provider s q opts
          = .ok ((List.insertionSort scoreGE results).take opts.topK) := by
  unfold similaritySearch
  by_cases hemp : s.documents.length = 0
  · rw [if_pos hemp]
    exact Or.inl rfl
  · rw [if_neg hemp]
    cases hg : generateEmbedding provider q with
    | error e => exact Or.inr (Or.inl ⟨e, rfl⟩)
    | ok qe =>
        dsimp only
        cases hc : collectResults qe opts.threshold opts.filter
            (getAllDocuments s) with
        | error e => exact Or.inr (Or.inl ⟨e, rfl⟩)
        | ok results => exact Or.inr (Or.inr ⟨qe, results, hc, rfl⟩)

lemma similaritySearchByVector_cases (s : MemoryVectorStore) (v : List ℚ)
    (opts : SearchOptions) :
    similaritySearchByVector s v opts = .ok []
    ∨ (∃ e, similaritySearchByVector s v opts = .error e)
    ∨ ∃ results,
        collectResults v opts.threshold opts.filter (getAllDocuments s)
          = .ok results
        ∧ similaritySearchByVector s v opts
          = .ok ((List.insertionSort scoreGE results).take opts.topK) := by
  unfold similaritySearchByVector
  by_cases hemp : s.documents.length = 0
  · rw [if_pos hemp]
    exact Or.inl rfl
  · rw [if_neg hemp]
    by_cases hdim : v.length ≠ s.dimension
    · rw [if_pos hdim]
      exact Or.inr (Or.inl ⟨_, rfl⟩)
    · rw [if_neg hdim]
      cases hc : collectResults v opts.threshold opts.filter
          (getAllDocuments s) with
      | error e => exact Or.inr (Or.inl ⟨e, rfl⟩)
      | ok results => exact Or.inr (Or.inr ⟨results, rfl, rfl⟩)

end SortLemmas

/-- C5. For both search entry points, the returned result list has its
scores in non-increasing order and its length bounded by `topK`. -/
theorem search_results_sorted_and_bounded (provider : Provider)
    (s : MemoryVectorStore) (q : String) (v : List ℚ)
    (opts : SearchOptions) :
    (List.Sorted (· ≥ ·)
        ((resultsOf (similaritySearch provider s q opts)).map
          SearchResult.score)
      ∧ (resultsOf (similaritySearch provider s q opts)).length
          ≤ opts.topK)
    ∧ (List.Sorted (· ≥ ·)
        ((resultsOf (similaritySearchByVector s v opts)).map
          SearchResult.score)
      ∧ (resultsOf (similaritySearchByVector s v opts)).length
          ≤ opts.topK) := by
  constructor
  · rcases similaritySearch_cases provider s q opts with
      h | ⟨e, h⟩ | ⟨qe, results, hc, h⟩
    · simp [resultsOf, h]
    · simp [resultsOf, h]
    · rw [h]
      exact sorted_scores_sortTake results opts.topK
  · rcases similaritySearchByVector_cases s v opts with
      h | ⟨e, h⟩ | ⟨results, hc, h⟩
    · simp [resultsOf, h]
    · simp [resultsOf, h]
    · rw [h]
      exact sorted_scores_sortTake results opts.topK

/-- C6. For both search entry points, every returned result's score is at
least the threshold supplied in the options. -/
theorem search_results_meet_threshold (provider : Provider)
    (s : MemoryVectorStore) (q : String) (v : List ℚ)
    (opts : SearchOptions) :
    (∀ r ∈ resultsOf (similaritySearch provider s q opts),
        (opts.threshold : ℝ) ≤ r.score)
    ∧ (∀ r ∈ resultsOf (similaritySearchByVector s v opts),
        (opts.threshold : ℝ) ≤ r.score) := by
  constructor
  · intro r hr
    rcases similaritySearch_cases provider s q opts with
      h | ⟨e, h⟩ | ⟨qe, results, hc, h⟩
    · rw [h] at hr
      simp [resultsOf] at hr
    · rw [h] at hr
      simp [resultsOf] at hr
    · rw [h] at hr
      exact collectResults_threshold hc r (mem_of_mem_sortTake hr)
  · intro r hr
    rcases similaritySearchByVector_cases s v opts with
      h | ⟨e, h⟩ | ⟨results, hc, h⟩
    · rw [h] at hr
      simp [resultsOf] at hr
    · rw [h] at hr
      simp [resultsOf] at hr
    · rw [h] at hr
      exact collectResults_threshold hc r (mem_of_mem_sortTake hr)

lemma resultsOf_storePos :
    resultsOf (similaritySearchByVector storePos [1] {})
      = [{ document := docPos, score := 1 }] := by
  simp only [similaritySearchByVector, storePos, docPos, getAllDocuments,
    collectResults, filterSkips, cosineSimilarity, dotProduct, sumSquares,
    resultsOf]
  norm_num [List.insertionSort, List.orderedInsert, resultsOf]

/-- Witness for `search_results_meet_threshold`: the single result of
searching `storePos` with its own document's vector has score `1`, at least
the default threshold `0`. -/
theorem search_results_meet_threshold_witness :
    ((({} : SearchOptions).threshold : ℚ) : ℝ) ≤
      ({ document := docPos, score := 1 } : SearchResult).score :=
  (search_results_meet_threshold (fun _ => .error "unused") storePos "q"
      [1] {}).2 { document := docPos, score := 1 }
    (by rw [resultsOf_storePos]; exact List.mem_singleton_self _)

/-- C3 (counterexample). `storeNeg` holds one document with an embedding
(`[-1]`, dimension 1) that passes the (absent) filter, yet
`similaritySearchByVector` with the default options returns no results for
the query `[1]`: the document's score `-1` fails the default threshold
check `score >= 0`, so the default is not "no filtering by score". -/
theorem default_threshold_drops_negative_score :
    similaritySearchByVector storeNeg [1] {} = .ok []
    ∧ docNeg.embedding.isSome = true
    ∧ getDocument storeNeg "a" = some docNeg := by
  refine ⟨?_, by decide, by decide⟩
  simp [similaritySearchByVector, storeNeg, collectResults, filterSkips,
    cosineSimilarity, getAllDocuments, docNeg, dotProduct, sumSquares]
  norm_num

/-- C3 (amended). When the caller omits the threshold option, the default
`0` filters by sign: for both entry points every retained result has a
non-negative score, and documents with negative scores are dropped. -/
theorem default_threshold_keeps_nonneg_scores (provider : Provider)
    (s : MemoryVectorStore) (q : String) (v : List ℚ) :
    (∀ r ∈ resultsOf (similaritySearch provider s q {}), (0 : ℝ) ≤ r.score)
    ∧ (∀ r ∈ resultsOf (similaritySearchByVector s v {}),
        (0 : ℝ) ≤ r.score) := by
  constructor
  · intro r hr
    rcases similaritySearch_cases provider s q {} with
      h | ⟨e, h⟩ | ⟨qe, results, hc, h⟩
    · rw [h] at hr
      simp [resultsOf] at hr
    · rw [h] at hr
      simp [resultsOf] at hr
    · rw [h] at hr
      simpa using collectResults_threshold hc r (mem_of_mem_sortTake hr)
  · intro r hr
    rcases similaritySearchByVector_cases s v {} with
      h | ⟨e, h⟩ | ⟨results, hc, h⟩
    · rw [h] at hr
      simp [resultsOf] at hr
    · rw [h] at hr
      simp [resultsOf] at hr
    · rw [h] at hr
      simpa using collectResults_threshold hc r (mem_of_mem_sortTake hr)

/-- Witness for `default_threshold_keeps_nonneg_scores`: the single result
of searching `storePos` with its own document's vector has score `1 ≥ 0`. -/
theorem default_threshold_keeps_nonneg_scores_witness :
    (0 : ℝ) ≤ ({ document := docPos, score := 1 } : SearchResult).score :=
  (default_threshold_keeps_nonneg_scores (fun _ => .error "unused")
      storePos "q" [1]).2 { document := docPos, score := 1 }
    (by rw [resultsOf_storePos]; exact List.mem_singleton_self _)

section StoreInvariantLemmas

lemma embeddingsPresent_iff (s : MemoryVectorStore) :
    embeddingsPresent s = true
      ↔ ∀ p ∈ s.documents, (p.2.embedding.isSome : Bool) = true := by
  simp [embeddingsPresent, List.all_eq_true]

lemma all_isSome_mapSet {m : List (String × Document)} {k : String}
    {v : Document}
    (hm : ∀ p ∈ m, ((p : String × Document).2.embedding.isSome : Bool) = true)
    (hv : v.embedding.isSome = true) :
    ∀ p ∈ mapSet m k v, (p.2.embedding.isSome : Bool) = true := by
  intro p hp
  rcases mem_mapSet m k v p hp with rfl | h
  · exact hv
  · exact hm p h

lemma mem_mapDelete (m : List (String × Document)) (k : String) :
    ∀ p ∈ (mapDelete m k).1, p ∈ m := by
  induction m with
  | nil => intro p hp; simp [mapDelete] at hp
  | cons q rest ih =>
      obtain ⟨k', v'⟩ := q
      intro p hp
      by_cases hk : k' = k
      · simp only [mapDelete, if_pos hk] at hp
        exact List.mem_cons_of_mem _ hp
      · simp only [mapDelete, if_neg hk] at hp
        rcases List.mem_cons.mp hp with rfl | hp'
        · exact List.mem_cons_self _ _
        · exact List.mem_cons_of_mem _ (ih p hp')

lemma addDocument_ok {provider : Provider} {s : MemoryVectorStore}
    {d : DocInput} {s' : MemoryVectorStore} {doc : Document}
    (h : addDocument provider s d = .ok (s', doc)) :
    ∃ emb, generateEmbedding provider d.content = .ok emb
      ∧ doc = { id := d.id, content := d.content, metadata := d.metadata,
                embedding := some emb }
      ∧ s' = { s with documents := mapSet s.documents d.id doc } := by
  unfold addDocument at h
  cases hg : generateEmbedding provider d.content with
  | error e =>
      simp only [hg] at h
      exact Except.noConfusion h
  | ok emb =>
      simp only [hg, Except.ok.injEq, Prod.mk.injEq] at h
      refine ⟨emb, rfl, h.2.symm, ?_⟩
      rw [← h.1, h.2]

lemma embeddingsPresent_addDocument_ok {provider : Provider}
    {s : MemoryVectorStore} {d : DocInput} {s' : MemoryVectorStore}
    {doc : Document} (had : addDocument provider s d = .ok (s', doc))
    (h : embeddingsPresent s = true) : embeddingsPresent s' = true := by
  obtain ⟨emb, _, hdoc, hs'⟩ := addDocument_ok had
  rw [embeddingsPresent_iff] at h ⊢
  rw [hs']
  exact all_isSome_mapSet h (by rw [hdoc]; rfl)

lemma embeddingsPresent_addDocuments (provider : Provider) :
    ∀ (ds : List DocInput) {s : MemoryVectorStore},
      embeddingsPresent s = true →
      embeddingsPresent (addDocuments provider s ds).1 = true := by
  intro ds
  induction ds with
  | nil => intro s h; exact h
  | cons d rest ih =>
      intro s h
      cases had : addDocument provider s d with
      | error e =>
          simp only [addDocuments, had]
          exact h
      | ok pair =>
          obtain ⟨s', doc⟩ := pair
          have hs' := embeddingsPresent_addDocument_ok had h
          cases hrec : addDocuments provider s' rest with
          | mk s'' r =>
              simp only [addDocuments, had, hrec]
              have := ih hs'
              rw [hrec] at this
              exact this

lemma embeddingsPresent_importDocs :
    ∀ (ds : List Document) {s : MemoryVectorStore},
      embeddingsPresent s = true →
      embeddingsPresent (importDocs s ds).1 = true := by
  intro ds
  induction ds with
  | nil => intro s h; exact h
  | cons d rest ih =>
      intro s h
      cases hemb : d.embedding with
      | none =>
          simp only [importDocs, hemb]
          exact h
      | some e =>
          simp only [importDocs, hemb]
          apply ih
          rw [embeddingsPresent_iff] at h ⊢
          exact all_isSome_mapSet h (by simp [hemb])

lemma embeddingsPresent_deleteDocument {s : MemoryVectorStore} {id : String}
    (h : embeddingsPresent s = true) :
    embeddingsPresent (deleteDocument s id).1 = true := by
  rw [embeddingsPresent_iff] at h ⊢
  cases hdel : mapDelete s.documents id with
  | mk m b =>
      simp only [deleteDocument, hdel]
      intro p hp
      apply h
      have := mem_mapDelete s.documents id p
      rw [hdel] at this
      exact this hp

lemma embeddingsPresent_applyOp (provider : Provider) (op : StoreOp)
    {s : MemoryVectorStore} (h : embeddingsPresent s = true) :
    embeddingsPresent (applyOp provider s op) = true := by
  cases op with
  | add d =>
      cases had : addDocument provider s d with
      | error e =>
          simp only [applyOp, had]
          exact h
      | ok pair =>
          obtain ⟨s', doc⟩ := pair
          simp only [applyOp, had]
          exact embeddingsPresent_addDocument_ok had h
  | addBatch ds => exact embeddingsPresent_addDocuments provider ds h
  | importBatch ds => exact embeddingsPresent_importDocs ds h
  | del id => exact embeddingsPresent_deleteDocument h
  | clearAll => rfl

end StoreInvariantLemmas

/-- C2 (counterexample). Importing a document whose embedding has length 2
into a store configured with dimension 3 succeeds and stores it, so the
"embedding length equals the configured dimension" part of the invariant is
not maintained: `import` never checks the length. -/
theorem import_accepts_wrong_dimension_embedding :
    (importDocs (mkStore "m" 3) [badDimDoc]).2 = none
    ∧ getDocument (importDocs (mkStore "m" 3) [badDimDoc]).1 "a"
        = some badDimDoc
    ∧ dimensionInvariant (importDocs (mkStore "m" 3) [badDimDoc]).1
        = false := by
  decide

/-- C2 (amended). After any sequence of mutating operations starting from a
freshly constructed store, every resident document has a non-absent
embedding; the embedding's length, however, is not validated against the
configured dimension (see the counterexample). -/
theorem embeddings_present_invariant (provider : Provider) (em : String)
    (dim : Nat) (ops : List StoreOp) :
    embeddingsPresent (applyOps provider (mkStore em dim) ops) = true := by
  have key : ∀ (l : List StoreOp) (s : MemoryVectorStore),
      embeddingsPresent s = true →
      embeddingsPresent (List.foldl (applyOp provider) s l) = true := by
    intro l
    induction l with
    | nil => intro s h; exact h
    | cons op rest ih =>
        intro s h
        exact ih _ (embeddingsPresent_applyOp provider op h)
  exact key ops (mkStore em dim) rfl

section RoundTripLemmas

lemma importDocs_cons_some {d : Document} {e : List ℚ}
    (he : d.embedding = some e) (s : MemoryVectorStore)
    (rest : List Document) :
    importDocs s (d :: rest)
      = importDocs { s with documents := mapSet s.documents d.id d } rest := by
  simp only [importDocs, he]

lemma importDocs_rebuild :
    ∀ (l acc : List (String × Document)) (em : String) (dim : Nat),
      (∀ p ∈ l, p.1 = p.2.id) →
      (∀ p ∈ l, (p.2.embedding.isSome : Bool) = true) →
      (l.map Prod.fst).Nodup →
      (∀ p ∈ l, p.1 ∉ acc.map Prod.fst) →
      importDocs ⟨acc, em, dim⟩ (l.map Prod.snd)
        = (⟨acc ++ l, em, dim⟩, none) := by
  intro l
  induction l with
  | nil =>
      intro acc em dim _ _ _ _
      simp [importDocs]
  | cons p rest ih =>
      obtain ⟨k, d⟩ := p
      intro acc em dim hkm hemb hnd hdisj
      have hid : k = d.id := hkm (k, d) (List.mem_cons_self _ _)
      have hds : (d.embedding.isSome : Bool) = true :=
        hemb (k, d) (List.mem_cons_self _ _)
      obtain ⟨e, he⟩ : ∃ e, d.embedding = some e :=
        Option.isSome_iff_exists.mp hds
      have hknotacc : k ∉ acc.map Prod.fst :=
        hdisj (k, d) (List.mem_cons_self _ _)
      have hnd' : (rest.map Prod.fst).Nodup :=
        (List.nodup_cons.mp (by simpa using hnd)).2
      have hknotrest : k ∉ rest.map Prod.fst :=
        (List.nodup_cons.mp (by simpa using hnd)).1
      rw [List.map_cons, importDocs_cons_some he]
      have hsetting :
          mapSet acc d.id d = acc ++ [(k, d)] := by
        rw [← hid]
        exact mapSet_of_not_mem_keys d hknotacc
      rw [hsetting]
      have hstep := ih (acc ++ [(k, d)]) em dim
        (fun p hp => hkm p (List.mem_cons_of_mem _ hp))
        (fun p hp => hemb p (List.mem_cons_of_mem _ hp))
        hnd'
        (fun p hp => by
          simp only [List.map_append, List.mem_append]
          rintro (hin | hin)
          · exact hdisj p (List.mem_cons_of_mem _ hp) hin
          · simp only [List.map_cons, List.map_nil,
              List.mem_singleton] at hin
            exact hknotrest (hin ▸ List.mem_map_of_mem Prod.fst hp))
      rw [hstep]
      simp

end RoundTripLemmas

/-- C4. For every store whose resident documents satisfy the data-model
invariants (unique keys, key = document id, embeddings present — all
maintained by the store's own operations), importing the store's export
into a freshly constructed store of the same configuration reproduces the
store exactly: the same `size` and, for every id, the same document with
equal content, metadata and embedding. -/
theorem export_import_roundTrip (s : MemoryVectorStore)
    (hnd : (s.documents.map Prod.fst).Nodup)
    (hkm : ∀ p ∈ s.documents, p.1 = p.2.id)
    (hemb : ∀ p ∈ s.documents, (p.2.embedding.isSome : Bool) = true) :
    importDocs (mkStore s.embeddingModel s.dimension) (exportDocs s)
      = (s, none)
    ∧ size (importDocs (mkStore s.embeddingModel s.dimension)
        (exportDocs s)).1 = size s
    ∧ ∀ id, getDocument (importDocs (mkStore s.embeddingModel s.dimension)
        (exportDocs s)).1 id = getDocument s id := by
  have h := importDocs_rebuild s.documents [] s.embeddingModel s.dimension
    hkm hemb hnd (by simp)
  have h' : importDocs (mkStore s.embeddingModel s.dimension)
      (exportDocs s) = (s, none) := by
    simpa [mkStore, exportDocs, getAllDocuments] using h
  exact ⟨h', by rw [h'], fun id => by rw [h']⟩

/-- Witness for `export_import_roundTrip`: the one-document store
`storePos` round-trips through `exportDocs`/`importDocs`. -/
theorem export_import_roundTrip_witness :
    importDocs (mkStore storePos.embeddingModel storePos.dimension)
      (exportDocs storePos) = (storePos, none) :=
  (export_import_roundTrip storePos (by decide) (by decide) (by decide)).1

section BatchLemmas

lemma getDocument_isSome_addDocuments (provider : Provider) :
    ∀ (ds : List DocInput) (s : MemoryVectorStore) (x : String),
      ((mapGet s.documents x).isSome : Bool) = true →
      ((mapGet (addDocuments provider s ds).1.documents x).isSome : Bool)
        = true := by
  intro ds
  induction ds with
  | nil => intro s x h; exact h
  | cons d rest ih =>
      intro s x h
      cases had : addDocument provider s d with
      | error e =>
          simp only [addDocuments, had]
          exact h
      | ok pair =>
          obtain ⟨s', doc⟩ := pair
          obtain ⟨emb, hg, hdoc, hs'⟩ := addDocument_ok had
          have hx : ((mapGet s'.documents x).isSome : Bool) = true := by
            rw [hs']
            show ((mapGet (mapSet s.documents d.id doc) x).isSome : Bool)
              = true
            rw [mapGet_mapSet]
            by_cases hxk : x = d.id
            · rw [if_pos hxk]; rfl
            · rw [if_neg hxk]; exact h
          cases hrec : addDocuments provider s' rest with
          | mk s'' r =>
              simp only [addDocuments, had, hrec]
              have := ih s' x hx
              rw [hrec] at this
              exact this

lemma addDocument_of_provider_error {provider : Provider}
    {d : DocInput} {e : String} (hd : provider d.content = .error e)
    (s : MemoryVectorStore) :
    addDocument provider s d
      = .error ("Failed to generate embedding: " ++ e) := by
  unfold addDocument generateEmbedding
  rw [hd]

lemma addDocument_of_provider_ok {provider : Provider} {d : DocInput}
    {v : List ℚ} (hv : provider d.content = .ok v)
    (s : MemoryVectorStore) :
    addDocument provider s d
      = .ok ({ s with documents := mapSet s.documents d.id (fullDocOf d v) },
            fullDocOf d v) := by
  unfold addDocument generateEmbedding fullDocOf
  rw [hv]

lemma addDocuments_partial_aux (provider : Provider) (d : DocInput)
    (rest : List DocInput) (e : String)
    (hd : provider d.content = .error e) :
    ∀ (pre : List DocInput) (s : MemoryVectorStore),
      (∀ p ∈ pre, ∃ v, provider p.content = .ok v) →
      addDocuments provider s (pre ++ d :: rest)
        = ((addDocuments provider s pre).1,
            .error ("Failed to generate embedding: " ++ e))
      ∧ ∀ p ∈ pre,
          ((getDocument (addDocuments provider s (pre ++ d :: rest)).1
            p.id).isSome : Bool) = true := by
  intro pre
  induction pre with
  | nil =>
      intro s _
      constructor
      · rw [List.nil_append]
        simp only [addDocuments, addDocument_of_provider_error hd s]
      · intro p hp
        simp at hp
  | cons p0 pre' ih =>
      intro s hpre
      obtain ⟨v0, hv0⟩ := hpre p0 (List.mem_cons_self _ _)
      have had := addDocument_of_provider_ok hv0 s
      set s1 : MemoryVectorStore :=
        { s with documents := mapSet s.documents p0.id (fullDocOf p0 v0) }
        with hs1
      have hpre' : ∀ p ∈ pre', ∃ v, provider p.content = .ok v :=
        fun p hp => hpre p (List.mem_cons_of_mem _ hp)
      obtain ⟨ih1, ih2⟩ := ih s1 hpre'
      constructor
      · rw [List.cons_append]
        simp only [addDocuments, had, ih1]
      · intro p hp
        rw [List.cons_append]
        simp only [addDocuments, had]
        rcases List.mem_cons.mp hp with rfl | hp'
        · have hbase :
              ((mapGet s1.documents p.id).isSome : Bool) = true := by
            show ((mapGet (mapSet s.documents p.id (fullDocOf p v0))
              p.id).isSome : Bool) = true
            rw [mapGet_mapSet, if_pos rfl]
            rfl
          have := getDocument_isSome_addDocuments provider
            (pre' ++ d :: rest) s1 p.id hbase
          cases hrec : addDocuments provider s1 (pre' ++ d :: rest) with
          | mk t r =>
              rw [hrec] at this
              simp only [hrec]
              exact this
        · have := ih2 p hp'
          cases hrec : addDocuments provider s1 (pre' ++ d :: rest) with
          | mk t r =>
              rw [hrec] at this
              simp only [hrec]
              exact this

end BatchLemmas

/-- C8. `addDocuments` processes the inputs sequentially in order via
`addDocument`; when the provider fails on some entry (every earlier entry
succeeding), the batch aborts there: the error is surfaced to the caller
and the resulting store is exactly the store obtained by adding only the
earlier entries, each of which remains retrievable by id. -/
theorem addDocuments_partial_failure (provider : Provider)
    (s : MemoryVectorStore) (pre : List DocInput) (d : DocInput)
    (rest : List DocInput) (e : String)
    (hpre : ∀ p ∈ pre, ∃ v, provider p.content = .ok v)
    (hd : provider d.content = .error e) :
    addDocuments provider s (pre ++ d :: rest)
      = ((addDocuments provider s pre).1,
          .error ("Failed to generate embedding: " ++ e))
    ∧ ∀ p ∈ pre,
        ((getDocument (addDocuments provider s (pre ++ d :: rest)).1
          p.id).isSome : Bool) = true :=
  addDocuments_partial_aux provider d rest e hd pre s hpre

/-- Witness for `addDocuments_partial_failure`: with `providerW`, the batch
`[inputGood, inputBad]` fails on the second entry, the error is surfaced,
and the first document stays committed. -/
theorem addDocuments_partial_failure_witness :
    addDocuments providerW (mkStore "m" 1) ([inputGood] ++ inputBad :: [])
      = ((addDocuments providerW (mkStore "m" 1) [inputGood]).1,
          .error ("Failed to generate embedding: " ++ "boom"))
    ∧ ((getDocument (addDocuments providerW (mkStore "m" 1)
        ([inputGood] ++ inputBad :: [])).1 inputGood.id).isSome : Bool)
        = true := by
  have h := addDocuments_partial_failure providerW (mkStore "m" 1)
    [inputGood] inputBad [] "boom"
    (by
      intro p hp
      rw [List.mem_singleton] at hp
      subst hp
      exact ⟨[1], rfl⟩)
    rfl
  exact ⟨h.1, h.2 inputGood (List.mem_singleton_self _)⟩

end ResearchGangsta
